import Mathlib

/-!
Verification of the 3D-printer backend (`src/server.js`).

The development shallowly embeds the algorithmic core of `server.js`:
the STL/OBJ mesh decoders (`readSTL`, `readBinarySTL`, `readASCIISTL`,
`readOBJ`), the bounding-box calculator (`getSize`), the PrusaSlicer
argument builder (`generatePrusaCommand` with its material table
`getMaterialSettings`), the G-code print-time extractor
(`parsePrintTime`), and the temp-file/engine orchestration of the
`/api/submit-configuration` handler.

Modelling conventions, fixed once here:
* JavaScript numbers are modelled by `JSNum`: either a finite rational,
  `NaN`, or a signed infinity.  Arithmetic on finite values is exact
  rational arithmetic (float rounding is not modelled; no claim below
  depends on rounding, and the binary-STL claim is stated at the level
  of the 32-bit words stored in the file).  Signed zero is not
  distinguished.
* Byte buffers are `List Nat`, each entry a byte value.  `TextDecoder`
  is modelled by mapping each byte to the character with that code
  point; this agrees with UTF-8 decoding on ASCII content, which is the
  only content any claim below mentions.
* JS strings are modelled as `List Char`.
-/

/-- A JavaScript number: NaN, ±Infinity, or a finite value (modelled
exactly as a rational; see the module conventions). -/
inductive JSNum where
  | nan : JSNum
  | inf : JSNum
  | ninf : JSNum
  | num (q : ℚ) : JSNum
deriving DecidableEq

/-- `Math.min` on two JS numbers: NaN absorbs, otherwise the order with
`-Infinity` least and `Infinity` greatest. -/
def jmin : JSNum → JSNum → JSNum
  | .nan, _ => .nan
  | _, .nan => .nan
  | .ninf, _ => .ninf
  | _, .ninf => .ninf
  | .inf, b => b
  | a, .inf => a
  | .num a, .num b => .num (min a b)

/-- `Math.max` on two JS numbers. -/
def jmax : JSNum → JSNum → JSNum
  | .nan, _ => .nan
  | _, .nan => .nan
  | .inf, _ => .inf
  | _, .inf => .inf
  | .ninf, b => b
  | a, .ninf => a
  | .num a, .num b => .num (max a b)

/-- JS subtraction `a - b` on `JSNum`. -/
def jsub : JSNum → JSNum → JSNum
  | .nan, _ => .nan
  | _, .nan => .nan
  | .inf, .inf => .nan
  | .inf, _ => .inf
  | .ninf, .ninf => .nan
  | .ninf, _ => .ninf
  | .num _, .inf => .ninf
  | .num _, .ninf => .inf
  | .num a, .num b => .num (a - b)

/-- JS `isNaN` on a number argument. -/
def jsIsNaN : JSNum → Bool
  | .nan => true
  | _ => false

/-- A decoded 3D point, as produced by the mesh decoders. -/
abbrev Pt := JSNum × JSNum × JSNum

/-- Byte access `buf[i]` as `DataView` sees it; out-of-range reads do
not occur in any use below, the default is irrelevant. -/
def byteAt (buf : List Nat) (i : Nat) : Nat := buf.getD i 0

/-- `DataView.getUint32(off, true)`: little-endian 32-bit read. -/
def getUint32LE (buf : List Nat) (off : Nat) : Nat :=
  byteAt buf off + 256 * byteAt buf (off + 1) +
    65536 * byteAt buf (off + 2) + 16777216 * byteAt buf (off + 3)

/-- Value of an IEEE-754 single-precision float with bit pattern `w`
(the exact real value, as a `JSNum`); models
`DataView.getFloat32` applied to the 32-bit word `w`. -/
def decodeF32 (w : Nat) : JSNum :=
  let s := w / 2147483648 % 2
  let e := w / 8388608 % 256
  let m := w % 8388608
  if e = 255 then
    if m = 0 then (if s = 1 then .ninf else .inf) else .nan
  else
    let mag : ℚ :=
      if e = 0 then (m : ℚ) * (2 : ℚ) ^ (-149 : ℤ)
      else ((8388608 + m : ℕ) : ℚ) * (2 : ℚ) ^ ((e : ℤ) - 150)
    .num (if s = 1 then -mag else mag)

/-- `TextDecoder().decode` on a byte buffer (see module conventions:
byte-to-code-point, faithful on ASCII content). -/
def decodeText (buf : List Nat) : List Char :=
  buf.map (fun b => Char.ofNat b)

/-- Byte buffer of an ASCII string, for concrete test inputs. -/
def strBytes (s : String) : List Nat := s.toList.map Char.toNat

/-- JS `String#toLowerCase`, on the ASCII range (the only range any
claim exercises). -/
def jsToLowerChar (c : Char) : Char :=
  if 65 ≤ c.toNat ∧ c.toNat ≤ 90 then Char.ofNat (c.toNat + 32) else c

/-- Lowercasing of a whole string. -/
def jsToLowerL (l : List Char) : List Char := l.map jsToLowerChar

/-- Whitespace as JS `trim` / `\s` sees it: the ASCII whitespace
characters plus the line and paragraph separators.  (The remaining
Unicode spaces, e.g. NBSP, are not modelled; no claim involves them.)
Note that every JS line terminator is JS whitespace. -/
def isJSWhitespace (c : Char) : Bool :=
  c = ' ' || c = '\t' || c = '\n' || c = '\r' || c = '\x0b' || c = '\x0c' ||
    c = '\u2028' || c = '\u2029'

/-- JS line terminators: exactly the characters the regex metacharacter
`.` does not match (in a regex without the `s` flag, as in the source):
line feed, carriage return, line separator, paragraph separator. -/
def isLineTerm (c : Char) : Bool :=
  c = '\n' || c = '\r' || c = '\u2028' || c = '\u2029'

/-- JS `String#trim`. -/
def jsTrim (l : List Char) : List Char :=
  ((l.dropWhile isJSWhitespace).reverse.dropWhile isJSWhitespace).reverse

/-- JS `String#split('\n')` (also used for the one-character separator
splits in the source). -/
def splitOn (sep : Char) : List Char → List (List Char)
  | [] => [[]]
  | c :: cs =>
    match splitOn sep cs with
    | [] => [[]]
    | r :: rs => if c = sep then [] :: r :: rs else (c :: r) :: rs

/-- Helper for `splitWS`: groups maximal nonblank runs.  Only invoked
on trimmed input, where it agrees with JS `split(/\s+/)`. -/
def wordsAux (cur : List Char) : List Char → List (List Char)
  | [] => if cur.isEmpty then [] else [cur.reverse]
  | c :: rest =>
    if isJSWhitespace c then
      if cur.isEmpty then wordsAux [] rest else cur.reverse :: wordsAux [] rest
    else wordsAux (c :: cur) rest

/-- JS `str.split(/\s+/)` for a trimmed `str` (the source always trims
first): the empty string yields `[""]`, otherwise the whitespace-
delimited words. -/
def splitWS (l : List Char) : List (List Char) :=
  if l.isEmpty then [[]] else wordsAux [] l

/-- Decimal digit value of a character, if any. -/
def digitVal (c : Char) : Option Nat :=
  if 48 ≤ c.toNat ∧ c.toNat ≤ 57 then some (c.toNat - 48) else none

/-- Consumes a run of decimal digits; returns the accumulated value,
the number of digits consumed, and the rest. -/
def digitsRun : List Char → Nat → Nat → Nat × Nat × List Char
  | [], acc, n => (acc, n, [])
  | c :: rest, acc, n =>
    match digitVal c with
    | some d => digitsRun rest (acc * 10 + d) (n + 1)
    | none => (acc, n, c :: rest)

/-- Unsigned decimal significand `digits[.digits]`; fails when no digit
is present on either side. -/
def parseSignificand (l : List Char) : Option (ℚ × List Char) :=
  match digitsRun l 0 0 with
  | (ip, ni, r1) =>
    match r1 with
    | '.' :: r2 =>
      match digitsRun r2 0 0 with
      | (fp, nf, r3) =>
        if ni = 0 ∧ nf = 0 then none
        else some ((ip : ℚ) + (fp : ℚ) / (10 : ℚ) ^ nf, r3)
    | _ => if ni = 0 then none else some ((ip : ℚ), r1)

/-- Exponent digits after `e`/`E` and an optional sign; the whole rest
must be digits, at least one. -/
def parseExpDigits (sgn : ℤ) (l : List Char) : Option ℤ :=
  match digitsRun l 0 0 with
  | (v, n, r) => if n = 0 ∨ ¬r.isEmpty then none else some (sgn * v)

/-- Decimal literal after the optional leading sign: significand and
optional exponent part, nothing else. -/
def jsNumberCore (l : List Char) : Option ℚ :=
  match parseSignificand l with
  | none => none
  | some (m, r) =>
    match r with
    | [] => some m
    | 'e' :: r2 =>
      (match r2 with
       | '+' :: r3 => parseExpDigits 1 r3
       | '-' :: r3 => parseExpDigits (-1) r3
       | _ => parseExpDigits 1 r2).map (fun ex => m * (10 : ℚ) ^ ex)
    | 'E' :: r2 =>
      (match r2 with
       | '+' :: r3 => parseExpDigits 1 r3
       | '-' :: r3 => parseExpDigits (-1) r3
       | _ => parseExpDigits 1 r2).map (fun ex => m * (10 : ℚ) ^ ex)
    | _ => none

/-- JS `Number(str)` on a string token: trims, empty means `0`,
optional sign, `Infinity` or a decimal literal, anything else `NaN`.
(Hex/octal/binary literals are omitted: no mesh token nor any claim
involves them.) -/
def jsNumber (tok : List Char) : JSNum :=
  let t := jsTrim tok
  if t.isEmpty then .num 0
  else
    let sgnNeg : Bool := t.headD ' ' = '-'
    let body : List Char :=
      match t with
      | '+' :: r => r
      | '-' :: r => r
      | _ => t
    if body = "Infinity".toList then (if sgnNeg then .ninf else .inf)
    else
      match jsNumberCore body with
      | some q => .num (if sgnNeg then -q else q)
      | none => .nan

/-- Bool substring scan used to model JS `String#includes`: drops
everything up to and including the first occurrence of `pat`, or
`none` when `pat` does not occur. -/
def dropAfterFirst (pat : List Char) : List Char → Option (List Char)
  | [] => none
  | c :: rest =>
    if pat.isPrefixOf (c :: rest) then some ((c :: rest).drop pat.length)
    else dropAfterFirst pat rest

/-- JS `String#includes` (for nonempty needles, the only use). -/
def containsSub (pat l : List Char) : Bool := (dropAfterFirst pat l).isSome

/-- `readOBJ` (src/server.js lines 66-83): line-oriented scan for
`v x y z` lines with numeric coordinates; throws on zero vertices. -/
def readOBJ (buf : List Nat) : Except String (List Pt) :=
  let txt := decodeText buf
  let verts := (splitOn '\n' txt).flatMap (fun line =>
    let parts := splitWS (jsTrim line)
    if parts.headD [] = "v".toList ∧ 4 ≤ parts.length then
      let x := jsNumber (parts.getD 1 [])
      let y := jsNumber (parts.getD 2 [])
      let z := jsNumber (parts.getD 3 [])
      if jsIsNaN x = false ∧ jsIsNaN y = false ∧ jsIsNaN z = false then
        [(x, y, z)]
      else []
    else [])
  if verts.isEmpty then .error "No valid vertices in OBJ" else .ok verts

/-- `readASCIISTL` (src/server.js lines 106-119): every trimmed,
lowercased line that splits into exactly four tokens headed `vertex`
contributes one point; the coordinate tokens go through `Number`
unconditionally (no NaN filtering, no emptiness check). -/
def readASCIISTL (txt : List Char) : List Pt :=
  (splitOn '\n' txt).flatMap (fun line =>
    let parts := splitWS (jsToLowerL (jsTrim line))
    if parts.headD [] = "vertex".toList ∧ parts.length = 4 then
      [(jsNumber (parts.getD 1 []), jsNumber (parts.getD 2 []),
        jsNumber (parts.getD 3 []))]
    else [])

/-- One vertex of `readBinarySTL`: three little-endian float32 reads at
`p`, `p+4`, `p+8`. -/
def ptAt (buf : List Nat) (p : Nat) : Pt :=
  (decodeF32 (getUint32LE buf p), decodeF32 (getUint32LE buf (p + 4)),
   decodeF32 (getUint32LE buf (p + 8)))

/-- Loop of `readBinarySTL` (src/server.js lines 122-140): per
triangle, skip the 12-byte normal, read three vertices of 12 bytes
each, skip the 2-byte attribute count. -/
def readTriangles (buf : List Nat) : Nat → Nat → List Pt
  | 0, _ => []
  | c + 1, offset =>
    ptAt buf (offset + 12) :: ptAt buf (offset + 24) :: ptAt buf (offset + 36) ::
      readTriangles buf c (offset + 50)

/-- `readBinarySTL`: triangle data starts at byte 84. -/
def readBinarySTL (buf : List Nat) (count : Nat) : List Pt :=
  readTriangles buf count 84

/-- ASCII fallback of `readSTL` (src/server.js lines 96-102).  In the
source this is the fall-through tail of `readSTL`; it is factored out
here because the early `return` makes it reachable from two spots. -/
def readSTLAscii (buf : List Nat) : Except String (List Pt) :=
  let text := decodeText buf
  if containsSub "solid".toList (jsToLowerL text) &&
     containsSub "facet".toList (jsToLowerL text) then
    .ok (readASCIISTL text)
  else .error "Not a valid STL file"

/-- `readSTL` (src/server.js lines 86-103): try binary (length strictly
above 84 and the declared count matching the byte length), otherwise
fall back to ASCII. -/
def readSTL (buf : List Nat) : Except String (List Pt) :=
  if buf.length > 84 then
    let triangles := getUint32LE buf 80
    if buf.length = 84 + triangles * 50 then .ok (readBinarySTL buf triangles)
    else readSTLAscii buf
  else readSTLAscii buf

/-- Result record of `getSize`. -/
structure Size where
  x : JSNum
  y : JSNum
  z : JSNum
  vertexCount : Nat
deriving DecidableEq

/-- Running min/max accumulator of `getSize`. -/
structure SizeAcc where
  minX : JSNum
  maxX : JSNum
  minY : JSNum
  maxY : JSNum
  minZ : JSNum
  maxZ : JSNum

/-- The `for` loop of `getSize`. -/
def sizeLoop : List Pt → SizeAcc → SizeAcc
  | [], acc => acc
  | (x, y, z) :: rest, acc =>
    sizeLoop rest
      ⟨jmin acc.minX x, jmax acc.maxX x, jmin acc.minY y, jmax acc.maxY y,
       jmin acc.minZ z, jmax acc.maxZ z⟩

/-- `getSize` (src/server.js lines 41-63): throws on an empty vertex
list, otherwise one linear pass from ±Infinity seeds, extents are
max − min per axis. -/
def getSize (verts : List Pt) : Except String Size :=
  if verts.isEmpty then .error "No vertices found"
  else
    let a := sizeLoop verts ⟨.inf, .ninf, .inf, .ninf, .inf, .ninf⟩
    .ok ⟨jsub a.maxX a.minX, jsub a.maxY a.minY, jsub a.maxZ a.minZ, verts.length⟩

/-- Decode dispatch plus size computation of the `/api/dimensions`
handler (src/server.js lines 160-164).  The route's extension
whitelist guarantees `ext` is `"stl"` or `"obj"` here. -/
def dimensionsOf (ext : String) (buf : List Nat) : Except String Size :=
  (if ext = "stl" then readSTL buf else readOBJ buf).bind getSize

/-- Material profile record of `getMaterialSettings`. -/
structure MaterialSettings where
  extruder : ℚ
  bed : ℚ
  firstLayerTemp : ℚ
  coolingFanSpeed : ℚ
  retractionLength : ℚ
  retractionSpeed : ℚ
deriving DecidableEq

/-- `getMaterialSettings` (src/server.js lines 190-265): fixed table
keyed by material name; unknown keys get the default profile, whose
values coincide with the PLA entry.  (The source declares but never
uses a second `materialType` parameter.) -/
def getMaterialSettings (material : String) : MaterialSettings :=
  if material = "PLA" then ⟨210, 60, 215, 100, 2, 40⟩
  else if material = "ABS" then ⟨250, 100, 255, 30, 1, 40⟩
  else if material = "PETG" then ⟨240, 80, 245, 50, 3, 40⟩
  else if material = "TPU" then ⟨220, 50, 225, 80, 1/2, 25⟩
  else if material = "PC" then ⟨280, 100, 285, 40, 3/2, 35⟩
  else if material = "ASA" then ⟨250, 80, 255, 30, 1, 40⟩
  else if material = "PEEK" then ⟨400, 120, 405, 20, 1, 30⟩
  else if material = "Nylon" then ⟨270, 80, 275, 60, 2, 35⟩
  else ⟨210, 60, 215, 100, 2, 40⟩

/-- Digit character `0`-`9`. -/
def digitChar (d : Nat) : Char := Char.ofNat (48 + d)

/-- Fuel-driven decimal rendering of a natural number (structural so
that concrete witnesses reduce in the kernel). -/
def natCharsFuel : Nat → Nat → List Char
  | _, 0 => []
  | n, fuel + 1 =>
    if n < 10 then [digitChar n]
    else natCharsFuel (n / 10) fuel ++ [digitChar (n % 10)]

/-- Decimal digits of a natural number. -/
def natChars (n : Nat) : List Char := natCharsFuel n (n + 1)

/-- Stand-in for JS `Number#toString`: renders the exact rational with
digits, an optional leading minus and an optional `/denominator` part.
The real JS conversion renders shortest round-trip decimals instead; no
claim concerns the digit content of a numeric argument, only which list
positions hold numbers rather than flags. -/
def jsToString (q : ℚ) : String :=
  String.mk ((if q.num < 0 then ['-'] else []) ++ natChars q.num.natAbs ++
    (if q.den = 1 then [] else '/' :: natChars q.den))

/-- Rendering of the (integer) fill density argument
`${config.fillDensity}%`: the decimal digits followed by `%`. -/
def fillDensityArg (i : ℤ) : String :=
  String.mk ((if i < 0 then ['-'] else []) ++ natChars i.natAbs ++ ['%'])

/-- The validated configuration object built by the submit handler
(src/server.js lines 387-393); `materialType = ""` models a falsy
`materialType`, making `materialType || material` fall back. -/
structure PrintConfig where
  material : String
  materialType : String
  nozzleSize : ℚ
  fillDensity : ℤ
  supportMaterial : Bool

/-- Layer-height rule of `generatePrusaCommand` (src/server.js lines
291-294): 0.2 default, overridden to `max 0.1 (nozzleSize * 0.5)` when
`nozzleSize ≤ 0.3`. -/
def layerHeightFor (nozzleSize : ℚ) : ℚ :=
  if nozzleSize ≤ 3/10 then max (1/10) (nozzleSize * (1/2)) else 1/5

/-- `generatePrusaCommand` (src/server.js lines 288-317): the flag/value
pairs, the fixed bed shape, the trailing export/output/input block, and
the `splice(-3, 0, '--support-material')` insertion. -/
def generatePrusaCommand (config : PrintConfig) (inputFilePath outputFilePath : String) :
    List String :=
  let materialSettings := getMaterialSettings config.material
  let layerHeight := layerHeightFor config.nozzleSize
  let args : List String :=
    ["--nozzle-diameter", jsToString config.nozzleSize,
     "--filament-type",
       (if config.materialType = "" then config.material else config.materialType),
     "--temperature", jsToString materialSettings.extruder,
     "--first-layer-temperature", jsToString materialSettings.firstLayerTemp,
     "--bed-temperature", jsToString materialSettings.bed,
     "--retract-length", jsToString materialSettings.retractionLength,
     "--retract-speed", jsToString materialSettings.retractionSpeed,
     "--fill-density", fillDensityArg config.fillDensity,
     "--layer-height", jsToString layerHeight,
     "--bed-shape", "0x0,300x0,300x300,0x300",
     "--export-gcode",
     "--output", outputFilePath,
     inputFilePath]
  if config.supportMaterial then
    args.take (args.length - 3) ++ "--support-material" :: args.drop (args.length - 3)
  else args

/-- The marker literal of `parsePrintTime`. -/
def ppMarker : List Char := "; estimated printing time".toList

/-- One-line action of the regex
`/; estimated printing time[^=]*=\s*(.+)/` in `parsePrintTime`,
matching at a marker occurrence.  `[^=]*` (which, unlike `.`, also
matches line terminators) runs exactly to the first `=` after the
marker — it cannot cross one and no earlier `=` exists for
backtracking to reach.  On the remainder `rest` after that `=`, with
`w` its maximal whitespace run and `r` the part after `w`:
* if `r` is nonempty, its head is not whitespace hence not a line
  terminator, so the greedy `\s*(.+)` capture is `r` up to the first
  line terminator (`.` matches neither LF nor CR), nonempty;
* if `r` is empty, `.+` backtracks into `w` and succeeds on the last
  non-terminator whitespace character of `w` — a one-character capture
  that trims to the empty string — failing only when `w` consists
  entirely of line terminators (or is empty).
Failure at the first marker occurrence implies failure at every later
one: failure means everything after the unique first `=` is line
terminators, where no further marker or `=` can sit, so every later
occurrence reaches the same `=` and the same all-terminator remainder.
Trying the first occurrence is therefore the regex's leftmost match.
The source returns the capture trimmed. -/
def lineMatch (line : List Char) : Option (List Char) :=
  match dropAfterFirst ppMarker line with
  | none => none
  | some r0 =>
    match r0.dropWhile (fun c => !(c == '=')) with
    | [] => none
    | _ :: rest =>
      let w := rest.takeWhile isJSWhitespace
      let r := rest.dropWhile isJSWhitespace
      if r.isEmpty then
        if w.any (fun c => !(isLineTerm c)) then some [] else none
      else some (jsTrim (r.takeWhile (fun c => !(isLineTerm c))))

/-- The scanning loop of `parsePrintTime`: the `break` fires only when
both the `includes` test and the regex match succeed; a marker line
that the regex rejects is skipped. -/
def parsePrintTimeLoop : List (List Char) → List Char
  | [] => "Unknown".toList
  | l :: ls =>
    if containsSub ppMarker l then
      match lineMatch l with
      | some t => t
      | none => parsePrintTimeLoop ls
    else parsePrintTimeLoop ls

/-- `parsePrintTime` (src/server.js lines 270-285). -/
def parsePrintTime (gcodeContent : List Char) : List Char :=
  parsePrintTimeLoop (splitOn '\n' gcodeContent)

/-- Exceptions that can reach the catch block of the submit handler's
inner `try` (src/server.js lines 377-478).  An engine execution error
is caught inline at line 413 and stored, so it never propagates as an
exception itself. -/
inductive Exc where
  | writeFailed
  | missingOutput
  | unlinkFailed
deriving DecidableEq

/-- Environment of one submit request past validation: which of the
filesystem and engine operations succeed, and the text the engine left
in the output file when it created one.  Each unlink knob models the
per-file behavior of deleting that temp file (deterministic within the
request). `engineOk = false` means `execFileAsync` rejected — non-zero
exit, signal or timeout; `engineCreatesOutput` is independent of it
because the wrapped engine may warn-and-succeed or die after writing. -/
structure SliceEnv where
  writeOk : Bool
  engineOk : Bool
  engineCreatesOutput : Bool
  unlinkInputOk : Bool
  unlinkOutputOk : Bool
  gcode : List Char

/-- The HTTP outcome of the inner try/catch: the 200 payload's
`printTime`, or the 500 `PrusaSlicer processing failed` response with
the caught exception. -/
inductive SliceResponse where
  | success (printTime : List Char)
  | failure (e : Exc)
deriving DecidableEq

/-- Final observable state of one submit request: the response, which
temp files still exist afterwards, and whether the catch-side cleanup
logged a `Cleanup error`. -/
structure SliceOutcome where
  response : SliceResponse
  inputFileRemains : Bool
  outputFileRemains : Bool
  cleanupErrorLogged : Bool
deriving DecidableEq

/-- The catch block (src/server.js lines 454-478) entered with
exception `e` while the temp input/output files exist per
`inExists`/`outExists`: both conditional unlinks sit in one `try`, so a
throwing input unlink skips the output unlink; any throw is logged and
suppressed, and the 500 response always carries `e`. -/
def catchCleanup (env : SliceEnv) (e : Exc) (inExists outExists : Bool) : SliceOutcome :=
  if inExists then
    if env.unlinkInputOk then
      if outExists then
        if env.unlinkOutputOk then ⟨.failure e, false, false, false⟩
        else ⟨.failure e, false, true, true⟩
      else ⟨.failure e, false, false, false⟩
    else ⟨.failure e, true, outExists, true⟩
  else
    if outExists then
      if env.unlinkOutputOk then ⟨.failure e, false, false, false⟩
      else ⟨.failure e, false, true, true⟩
    else ⟨.failure e, false, false, false⟩

/-- The inner `try` of the submit handler (src/server.js lines
377-478), from staging the temp input file to the response: write the
input (line 379; its `existsSync` recheck at line 381 passes whenever
the write succeeded), run the engine with errors caught inline (lines
404-417, after which only `env.engineCreatesOutput` matters), fail when
the output file is missing (line 421), otherwise read it, parse the
print time (lines 426-427), and delete both temp files with *unguarded*
`unlinkSync` calls (lines 430-431) before responding 200.  Every throw
lands in `catchCleanup`. -/
def runSliceJob (env : SliceEnv) : SliceOutcome :=
  if env.writeOk = false then catchCleanup env .writeFailed false false
  else
    if env.engineCreatesOutput = false then catchCleanup env .missingOutput true false
    else
      let printTime := parsePrintTime env.gcode
      if env.unlinkInputOk = false then catchCleanup env .unlinkFailed true true
      else
        if env.unlinkOutputOk = false then catchCleanup env .unlinkFailed false true
        else ⟨.success printTime, false, false, false⟩

/-- One triangle record of a synthetic binary STL: the 12 normal bytes
(skipped by the decoder), the nine 32-bit vertex words (three vertices
of three coordinates), and the 2 attribute bytes (skipped). -/
structure Tri where
  normal : List Nat
  w : List Nat
  attrib : List Nat
deriving DecidableEq

/-- Well-formedness of a triangle record: field lengths per the STL
layout, vertex words in 32-bit range. -/
def TriWF (t : Tri) : Prop :=
  t.normal.length = 12 ∧ t.w.length = 9 ∧ t.attrib.length = 2 ∧
    ∀ x ∈ t.w, x < 4294967296

instance (t : Tri) : Decidable (TriWF t) := by
  unfold TriWF
  infer_instance

/-- Little-endian byte serialization of a 32-bit word. -/
def encodeW32 (x : Nat) : List Nat :=
  [x % 256, x / 256 % 256, x / 65536 % 256, x / 16777216 % 256]

/-- 50-byte serialization of one triangle. -/
def encodeTri (t : Tri) : List Nat :=
  t.normal ++ t.w.flatMap encodeW32 ++ t.attrib

/-- A synthetic binary STL: an arbitrary 80-byte header, the
little-endian triangle count, then the triangle records. -/
def stlBytes (hdr : List Nat) (tris : List Tri) : List Nat :=
  hdr ++ encodeW32 tris.length ++ tris.flatMap encodeTri

/-- The three source vertices of a triangle record, decoded exactly as
32-bit floats: what a correct binary decode must yield for it. -/
def ptsOfTri (t : Tri) : List Pt :=
  [(decodeF32 (t.w.getD 0 0), decodeF32 (t.w.getD 1 0), decodeF32 (t.w.getD 2 0)),
   (decodeF32 (t.w.getD 3 0), decodeF32 (t.w.getD 4 0), decodeF32 (t.w.getD 5 0)),
   (decodeF32 (t.w.getD 6 0), decodeF32 (t.w.getD 7 0), decodeF32 (t.w.getD 8 0))]

/-- Lifting of an exact rational point into the decoder's point type,
for stating the bounding-box claim over finite inputs. -/
def liftPt (p : ℚ × ℚ × ℚ) : Pt := (.num p.1, .num p.2.1, .num p.2.2)

/-- The per-line test of `readASCIISTL`, stated separately from the
decoder: first token `vertex`, exactly four tokens — with no condition
at all on the numeric shape of the coordinate tokens. -/
def isVertexLine (line : List Char) : Bool :=
  let parts := splitWS (jsToLowerL (jsTrim line))
  parts.headD [] = "vertex".toList && parts.length = 4

/-- The 20 arguments preceding the export/output/input tail of
`generatePrusaCommand`: a spec-side abbreviation used to state where
the trailing block and the support flag sit.  Its content is exactly
the flag/value prefix the builder emits. -/
def basePrefix (config : PrintConfig) : List String :=
  ["--nozzle-diameter", jsToString config.nozzleSize,
   "--filament-type",
     (if config.materialType = "" then config.material else config.materialType),
   "--temperature", jsToString (getMaterialSettings config.material).extruder,
   "--first-layer-temperature", jsToString (getMaterialSettings config.material).firstLayerTemp,
   "--bed-temperature", jsToString (getMaterialSettings config.material).bed,
   "--retract-length", jsToString (getMaterialSettings config.material).retractionLength,
   "--retract-speed", jsToString (getMaterialSettings config.material).retractionSpeed,
   "--fill-density", fillDensityArg config.fillDensity,
   "--layer-height", jsToString (layerHeightFor config.nozzleSize),
   "--bed-shape", "0x0,300x0,300x300,0x300"]

deriving instance DecidableEq for Except

theorem byteAt_append (l l' : List Nat) (i : Nat) :
    byteAt (l ++ l') (l.length + i) = byteAt l' i := by
  induction l with
  | nil => simp [byteAt]
  | cons a t ih =>
    show byteAt (a :: (t ++ l')) (t.length + 1 + i) = byteAt l' i
    rw [show t.length + 1 + i = (t.length + i) + 1 by omega]
    simpa [byteAt, List.getD] using ih

theorem encodeW32_length (x : Nat) : (encodeW32 x).length = 4 := rfl

theorem getUint32LE_encodeW32 (pre suf : List Nat) (w : Nat) (hw : w < 4294967296) :
    getUint32LE (pre ++ (encodeW32 w ++ suf)) pre.length = w := by
  have e0 : byteAt (pre ++ (encodeW32 w ++ suf)) pre.length = w % 256 := by
    simpa [encodeW32, byteAt, List.getD] using byteAt_append pre (encodeW32 w ++ suf) 0
  have e1 : byteAt (pre ++ (encodeW32 w ++ suf)) (pre.length + 1) = w / 256 % 256 := by
    simpa [encodeW32, byteAt, List.getD] using byteAt_append pre (encodeW32 w ++ suf) 1
  have e2 : byteAt (pre ++ (encodeW32 w ++ suf)) (pre.length + 2) = w / 65536 % 256 := by
    simpa [encodeW32, byteAt, List.getD] using byteAt_append pre (encodeW32 w ++ suf) 2
  have e3 : byteAt (pre ++ (encodeW32 w ++ suf)) (pre.length + 3) = w / 16777216 % 256 := by
    simpa [encodeW32, byteAt, List.getD] using byteAt_append pre (encodeW32 w ++ suf) 3
  simp only [getUint32LE, e0, e1, e2, e3]
  omega

theorem getUint32LE_words (ws : List Nat) (hws : ∀ x ∈ ws, x < 4294967296) :
    ∀ (j : Nat) (pre suf : List Nat), j < ws.length →
      getUint32LE (pre ++ (ws.flatMap encodeW32 ++ suf)) (pre.length + 4 * j) =
        ws.getD j 0 := by
  induction ws with
  | nil =>
    intro j _ _ h
    simp at h
  | cons w ws ih =>
    intro j pre suf hj
    cases j with
    | zero =>
      have := getUint32LE_encodeW32 pre (ws.flatMap encodeW32 ++ suf) w
        (hws w (List.mem_cons_self _ _))
      simpa [List.flatMap_cons, List.append_assoc] using this
    | succ j' =>
      have hws' : ∀ x ∈ ws, x < 4294967296 :=
        fun x hx => hws x (List.mem_cons_of_mem _ hx)
      have hj' : j' < ws.length := by simpa using Nat.lt_of_succ_lt_succ hj
      have := ih hws' j' (pre ++ encodeW32 w) suf hj'
      have hlen : (pre ++ encodeW32 w).length = pre.length + 4 := by
        simp [encodeW32]
      rw [hlen] at this
      have harith : pre.length + 4 + 4 * j' = pre.length + 4 * (j' + 1) := by omega
      rw [harith] at this
      simpa [List.flatMap_cons, List.append_assoc, List.getD] using this

theorem flatMap_encodeW32_length (ws : List Nat) :
    (ws.flatMap encodeW32).length = 4 * ws.length := by
  induction ws with
  | nil => simp
  | cons w t ih => simp [List.flatMap_cons, ih, encodeW32]; omega

theorem encodeTri_length (t : Tri) (h : TriWF t) : (encodeTri t).length = 50 := by
  obtain ⟨hn, hw, ha, _⟩ := h
  simp only [encodeTri, List.length_append, flatMap_encodeW32_length, hn, hw, ha]

theorem readTriangles_encode (tris : List Tri) :
    ∀ pre : List Nat, (∀ t ∈ tris, TriWF t) →
      readTriangles (pre ++ tris.flatMap encodeTri) tris.length pre.length =
        tris.flatMap ptsOfTri := by
  induction tris with
  | nil => intro pre _; rfl
  | cons t ts ih =>
    intro pre hwf
    obtain ⟨hn, hw, ha, hbound⟩ := hwf t (List.mem_cons_self _ _)
    set buf := pre ++ (t :: ts).flatMap encodeTri with hbuf
    have key : ∀ j, j < 9 →
        getUint32LE buf (pre.length + (12 + 4 * j)) = t.w.getD j 0 := by
      intro j hj
      have := getUint32LE_words t.w hbound j (pre ++ t.normal)
        (t.attrib ++ ts.flatMap encodeTri) (by rw [hw]; exact hj)
      have hlen : (pre ++ t.normal).length = pre.length + 12 := by simp [hn]
      rw [hlen] at this
      have hl : (pre ++ t.normal) ++ (t.w.flatMap encodeW32 ++ (t.attrib ++ ts.flatMap encodeTri)) = buf := by
        simp [hbuf, List.flatMap_cons, encodeTri, List.append_assoc]
      rw [hl] at this
      rw [show pre.length + 12 + 4 * j = pre.length + (12 + 4 * j) by omega] at this
      exact this
    have k0 := key 0 (by omega)
    have k1 := key 1 (by omega)
    have k2 := key 2 (by omega)
    have k3 := key 3 (by omega)
    have k4 := key 4 (by omega)
    have k5 := key 5 (by omega)
    have k6 := key 6 (by omega)
    have k7 := key 7 (by omega)
    have k8 := key 8 (by omega)
    norm_num at k0 k1 k2 k3 k4 k5 k6 k7 k8
    have tail : readTriangles buf ts.length (pre.length + 50) = ts.flatMap ptsOfTri := by
      have := ih (pre ++ encodeTri t) (fun u hu => hwf u (List.mem_cons_of_mem _ hu))
      have hlen : (pre ++ encodeTri t).length = pre.length + 50 := by
        simp [encodeTri_length t ⟨hn, hw, ha, hbound⟩]
      have hl : (pre ++ encodeTri t) ++ ts.flatMap encodeTri = buf := by
        simp [hbuf, List.flatMap_cons, List.append_assoc]
      rw [hlen, hl] at this
      exact this
    show readTriangles buf (ts.length + 1) pre.length = ptsOfTri t ++ ts.flatMap ptsOfTri
    simp only [readTriangles, ptAt, ptsOfTri]
    rw [show pre.length + 12 + 4 = pre.length + 16 by omega,
        show pre.length + 12 + 8 = pre.length + 20 by omega,
        show pre.length + 24 + 4 = pre.length + 28 by omega,
        show pre.length + 24 + 8 = pre.length + 32 by omega,
        show pre.length + 36 + 4 = pre.length + 40 by omega,
        show pre.length + 36 + 8 = pre.length + 44 by omega]
    rw [k0, k1, k2, k3, k4, k5, k6, k7, k8, tail]
    simp

theorem flatMap_ptsOfTri_length (tris : List Tri) :
    (tris.flatMap ptsOfTri).length = 3 * tris.length := by
  induction tris with
  | nil => simp
  | cons t ts ih =>
    simp only [List.flatMap_cons, List.length_append, ih, ptsOfTri,
      List.length_cons, List.length_nil]
    omega

theorem sizeLoop_num (qs : List (ℚ × ℚ × ℚ)) :
    ∀ a b c d e f : ℚ,
      sizeLoop (qs.map liftPt) ⟨.num a, .num b, .num c, .num d, .num e, .num f⟩ =
        ⟨.num (qs.foldl (fun m p => min m p.1) a), .num (qs.foldl (fun m p => max m p.1) b),
         .num (qs.foldl (fun m p => min m p.2.1) c), .num (qs.foldl (fun m p => max m p.2.1) d),
         .num (qs.foldl (fun m p => min m p.2.2) e), .num (qs.foldl (fun m p => max m p.2.2) f)⟩ := by
  induction qs with
  | nil => intro a b c d e f; rfl
  | cons p ps ih =>
    intro a b c d e f
    simp only [List.map_cons, liftPt, sizeLoop, jmin, jmax, List.foldl_cons]
    exact ih _ _ _ _ _ _

theorem foldl_max_mem (l : List ℚ) : ∀ a : ℚ, l.foldl max a ∈ a :: l := by
  induction l with
  | nil => intro a; simp
  | cons x t ih =>
    intro a
    rcases List.mem_cons.mp (ih (max a x)) with h | h
    · rcases max_choice a x with hm | hm
      · rw [List.foldl_cons, h, hm]; exact List.mem_cons_self _ _
      · rw [List.foldl_cons, h, hm]
        exact List.mem_cons_of_mem _ (List.mem_cons_self _ _)
    · rw [List.foldl_cons]
      exact List.mem_cons_of_mem _ (List.mem_cons_of_mem _ h)

theorem foldl_min_mem (l : List ℚ) : ∀ a : ℚ, l.foldl min a ∈ a :: l := by
  induction l with
  | nil => intro a; simp
  | cons x t ih =>
    intro a
    rcases List.mem_cons.mp (ih (min a x)) with h | h
    · rcases min_choice a x with hm | hm
      · rw [List.foldl_cons, h, hm]; exact List.mem_cons_self _ _
      · rw [List.foldl_cons, h, hm]
        exact List.mem_cons_of_mem _ (List.mem_cons_self _ _)
    · rw [List.foldl_cons]
      exact List.mem_cons_of_mem _ (List.mem_cons_of_mem _ h)

theorem le_foldl_max (l : List ℚ) :
    ∀ a : ℚ, a ≤ l.foldl max a ∧ ∀ q ∈ l, q ≤ l.foldl max a := by
  induction l with
  | nil => intro a; simp
  | cons x t ih =>
    intro a
    obtain ⟨h1, h2⟩ := ih (max a x)
    refine ⟨le_trans (le_max_left a x) (by simpa [List.foldl_cons] using h1), ?_⟩
    intro q hq
    rcases List.mem_cons.mp hq with rfl | hq
    · exact le_trans (le_max_right a q) (by simpa [List.foldl_cons] using h1)
    · simpa [List.foldl_cons] using h2 q hq

theorem foldl_min_le (l : List ℚ) :
    ∀ a : ℚ, l.foldl min a ≤ a ∧ ∀ q ∈ l, l.foldl min a ≤ q := by
  induction l with
  | nil => intro a; simp
  | cons x t ih =>
    intro a
    obtain ⟨h1, h2⟩ := ih (min a x)
    refine ⟨le_trans (by simpa [List.foldl_cons] using h1) (min_le_left a x), ?_⟩
    intro q hq
    rcases List.mem_cons.mp hq with rfl | hq
    · exact le_trans (by simpa [List.foldl_cons] using h1) (min_le_right a q)
    · simpa [List.foldl_cons] using h2 q hq

theorem natCharsFuel_mem (fuel : Nat) :
    ∀ (n : Nat), ∀ c ∈ natCharsFuel n fuel, c ∈ "0123456789".toList := by
  induction fuel with
  | zero => intro n c hc; simp [natCharsFuel] at hc
  | succ f ih =>
    intro n c hc
    simp only [natCharsFuel] at hc
    by_cases h : n < 10
    · rw [if_pos h] at hc
      simp only [List.mem_singleton] at hc
      subst hc
      interval_cases n <;> decide
    · rw [if_neg h] at hc
      rcases List.mem_append.mp hc with h1 | h1
      · exact ih (n / 10) c h1
      · simp only [List.mem_singleton] at h1
        subst h1
        have hm : n % 10 < 10 := Nat.mod_lt _ (by omega)
        set m := n % 10 with hmdef
        clear_value m
        interval_cases m <;> decide

theorem jsToString_chars (q : ℚ) :
    ∀ c ∈ (jsToString q).toList, c ∈ "-/0123456789".toList := by
  intro c hc
  have hmk : ∀ L : List Char, (String.mk L).toList = L := fun _ => rfl
  simp only [jsToString, hmk, natChars] at hc
  rcases List.mem_append.mp hc with h1 | h1
  · rcases List.mem_append.mp h1 with h2 | h2
    · by_cases hneg : q.num < 0
      · rw [if_pos hneg] at h2
        simp only [List.mem_singleton] at h2
        subst h2; decide
      · rw [if_neg hneg] at h2
        simp at h2
    · have := natCharsFuel_mem _ _ c h2
      fin_cases this <;> decide
  · by_cases hden : q.den = 1
    · rw [if_pos hden] at h1
      simp at h1
    · rw [if_neg hden] at h1
      rcases List.mem_cons.mp h1 with rfl | h2
      · decide
      · have := natCharsFuel_mem _ _ c h2
        fin_cases this <;> decide

theorem flatMap_encodeTri_length (tris : List Tri) (hwf : ∀ t ∈ tris, TriWF t) :
    (tris.flatMap encodeTri).length = 50 * tris.length := by
  induction tris with
  | nil => simp
  | cons t ts ih =>
    have := encodeTri_length t (hwf t (List.mem_cons_self _ _))
    simp only [List.flatMap_cons, List.length_append, this,
      ih (fun u hu => hwf u (List.mem_cons_of_mem _ hu)), List.length_cons]
    omega

theorem jsToString_ne_support (q : ℚ) : jsToString q ≠ "--support-material" := by
  intro h
  have hs : 's' ∈ (jsToString q).toList := by rw [h]; decide
  have := jsToString_chars q 's' hs
  exact absurd this (by decide)

theorem fillDensityArg_chars (i : ℤ) :
    ∀ c ∈ (fillDensityArg i).toList, c ∈ "-%0123456789".toList := by
  intro c hc
  have hmk : ∀ L : List Char, (String.mk L).toList = L := fun _ => rfl
  simp only [fillDensityArg, hmk, natChars] at hc
  rcases List.mem_append.mp hc with h1 | h1
  · rcases List.mem_append.mp h1 with h2 | h2
    · by_cases hneg : i < 0
      · rw [if_pos hneg] at h2
        simp only [List.mem_singleton] at h2
        subst h2; decide
      · rw [if_neg hneg] at h2
        simp at h2
    · have := natCharsFuel_mem _ _ c h2
      fin_cases this <;> decide
  · simp only [List.mem_singleton] at h1
    subst h1; decide

theorem fillDensityArg_ne_support (i : ℤ) : fillDensityArg i ≠ "--support-material" := by
  intro h
  have hs : 's' ∈ (fillDensityArg i).toList := by rw [h]; decide
  have := fillDensityArg_chars i 's' hs
  exact absurd this (by decide)

theorem generatePrusaCommand_eq (c : PrintConfig) (inP outP : String) :
    generatePrusaCommand c inP outP =
      basePrefix c ++ ["--export-gcode"] ++
        (if c.supportMaterial then ["--support-material"] else []) ++
        ["--output", outP, inP] := by
  obtain ⟨mat, mtype, ns, fd, sup⟩ := c
  cases sup <;> rfl

theorem support_flag_absent (c : PrintConfig) (inP outP : String)
    (hs : c.supportMaterial = false) (hm : c.material ≠ "--support-material")
    (hmt : c.materialType ≠ "--support-material") (hin : inP ≠ "--support-material")
    (hout : outP ≠ "--support-material") :
    "--support-material" ∉ generatePrusaCommand c inP outP := by
  intro hmem
  rw [generatePrusaCommand_eq, hs] at hmem
  simp only [Bool.false_eq_true, if_false, basePrefix, List.append_nil, List.append_assoc,
    List.cons_append, List.nil_append, List.mem_cons, List.not_mem_nil, or_false] at hmem
  rcases hmem with h|h|h|h|h|h|h|h|h|h|h|h|h|h|h|h|h|h|h|h|h|h|h|h
  all_goals first
    | exact absurd h (by decide)
    | exact jsToString_ne_support _ h.symm
    | exact fillDensityArg_ne_support _ h.symm
    | exact hout h.symm
    | exact hin h.symm
    | (split at h
       · exact hm h.symm
       · exact hmt h.symm)

theorem parsePrintTimeLoop_no_marker (ls : List (List Char))
    (h : ∀ l ∈ ls, containsSub ppMarker l = false) :
    parsePrintTimeLoop ls = "Unknown".toList := by
  induction ls with
  | nil => rfl
  | cons l t ih =>
    have hl := h l (List.mem_cons_self _ _)
    simp only [parsePrintTimeLoop, hl, Bool.false_eq_true, if_false]
    exact ih (fun x hx => h x (List.mem_cons_of_mem _ hx))

theorem parsePrintTimeLoop_first (pre : List (List Char)) (l : List Char)
    (post : List (List Char)) (t : List Char)
    (hpre : ∀ l' ∈ pre, containsSub ppMarker l' = false)
    (hm : lineMatch l = some t) :
    parsePrintTimeLoop (pre ++ l :: post) = t := by
  induction pre with
  | nil =>
    have hc : containsSub ppMarker l = true := by
      simp only [lineMatch] at hm
      cases hd : dropAfterFirst ppMarker l with
      | none => rw [hd] at hm; cases hm
      | some r => simp [containsSub, hd]
    simp only [List.nil_append, parsePrintTimeLoop, hc, if_true, hm]
  | cons p ps ih =>
    have hp := hpre p (List.mem_cons_self _ _)
    simp only [List.cons_append, parsePrintTimeLoop, hp, Bool.false_eq_true, if_false]
    exact ih (fun x hx => hpre x (List.mem_cons_of_mem _ hx))

theorem getSize_ok_inv (verts : List Pt) (s : Size) (h : getSize verts = .ok s) :
    s.vertexCount = verts.length ∧ verts ≠ [] := by
  simp only [getSize] at h
  split at h
  · cases h
  · next hne =>
    injection h with h'
    subst h'
    exact ⟨rfl, by simpa [List.isEmpty_iff] using hne⟩

/-- C1 (amended to N ≥ 1: an N = 0 file is 84 bytes long and the
decoder's strict `byteLength > 84` guard routes it to the ASCII
fallback, see the counterexample).  For every synthetic binary STL with
a correct little-endian triangle count N ≥ 1 at offset 80 and total
length 84 + N·50, `readSTL` decodes exactly 3N points, and each point
is exactly the IEEE-754 single-precision value of the corresponding
source vertex word. -/
theorem claim1_binary_stl_decode (hdr : List Nat) (tris : List Tri)
    (hh : hdr.length = 80) (hne : tris ≠ []) (hcount : tris.length < 4294967296)
    (hwf : ∀ t ∈ tris, TriWF t) :
    readSTL (stlBytes hdr tris) = .ok (tris.flatMap ptsOfTri) ∧
    (tris.flatMap ptsOfTri).length = 3 * tris.length := by
  have hflat := flatMap_encodeTri_length tris hwf
  have hlen : (stlBytes hdr tris).length = 84 + tris.length * 50 := by
    simp only [stlBytes, List.length_append, hh, encodeW32_length, hflat]
    omega
  have hgt : (stlBytes hdr tris).length > 84 := by
    have : 1 ≤ tris.length := List.length_pos.mpr hne
    omega
  have hcnt : getUint32LE (stlBytes hdr tris) 80 = tris.length := by
    have := getUint32LE_encodeW32 hdr (tris.flatMap encodeTri) tris.length hcount
    rw [hh] at this
    simpa [stlBytes, List.append_assoc] using this
  have hpre : (hdr ++ encodeW32 tris.length).length = 84 := by
    simp [hh, encodeW32]
  have hmain := readTriangles_encode tris (hdr ++ encodeW32 tris.length) hwf
  rw [hpre] at hmain
  have hb : (hdr ++ encodeW32 tris.length) ++ tris.flatMap encodeTri = stlBytes hdr tris := by
    simp [stlBytes, List.append_assoc]
  rw [hb] at hmain
  refine ⟨?_, flatMap_ptsOfTri_length tris⟩
  simp only [readSTL]
  rw [if_pos hgt, hcnt, hlen, if_pos rfl]
  simp only [readBinarySTL, hmain]

/-- C1 witness: a one-triangle all-zero binary STL decodes to three
zero points. -/
theorem claim1_binary_stl_decode_witness :
    (List.replicate 80 0).length = 80 ∧
    ([⟨List.replicate 12 0, List.replicate 9 0, List.replicate 2 0⟩] : List Tri) ≠ [] ∧
    ([⟨List.replicate 12 0, List.replicate 9 0, List.replicate 2 0⟩] : List Tri).length < 4294967296 ∧
    (∀ t ∈ ([⟨List.replicate 12 0, List.replicate 9 0, List.replicate 2 0⟩] : List Tri), TriWF t) ∧
    readSTL (stlBytes (List.replicate 80 0)
        [⟨List.replicate 12 0, List.replicate 9 0, List.replicate 2 0⟩]) =
      .ok (([⟨List.replicate 12 0, List.replicate 9 0, List.replicate 2 0⟩] : List Tri).flatMap ptsOfTri) :=
  ⟨by decide, by decide, by decide, by decide,
   (claim1_binary_stl_decode (List.replicate 80 0)
     [⟨List.replicate 12 0, List.replicate 9 0, List.replicate 2 0⟩]
     (by decide) (by decide) (by decide) (by decide)).1⟩

/-- C1 counterexample: the 84-byte all-zero buffer has a correct
header for N = 0 (count word 0, length 84 = 84 + 0·50), yet `readSTL`
does not yield 0 points — it falls back to ASCII and fails. -/
theorem claim1_zero_triangle_counterexample :
    (List.replicate 84 0 : List Nat).length = 84 + getUint32LE (List.replicate 84 0) 80 * 50 ∧
    getUint32LE (List.replicate 84 0) 80 = 0 ∧
    readSTL (List.replicate 84 0) = .error "Not a valid STL file" ∧
    readSTL (List.replicate 84 0) ≠ .ok [] := by
  have h3 : readSTL (List.replicate 84 0) = .error "Not a valid STL file" := by decide
  exact ⟨by decide, by decide, h3, by rw [h3]; simp⟩

/-- C2: for every non-empty sequence of (finite) points, `getSize`
returns per-axis extents max − min and `vertexCount` the number of
points (the folds in the first conjunct are characterised as the true
maximum/minimum by the next two conjuncts), and on zero points it
fails with the `No vertices found` error instead of returning a
result. -/
theorem claim2_computeExtents_spec :
    (∀ (p : ℚ × ℚ × ℚ) (ps : List (ℚ × ℚ × ℚ)),
        getSize ((p :: ps).map liftPt) =
          .ok ⟨.num ((ps.map (fun q => q.1)).foldl max p.1 -
                     (ps.map (fun q => q.1)).foldl min p.1),
               .num ((ps.map (fun q => q.2.1)).foldl max p.2.1 -
                     (ps.map (fun q => q.2.1)).foldl min p.2.1),
               .num ((ps.map (fun q => q.2.2)).foldl max p.2.2 -
                     (ps.map (fun q => q.2.2)).foldl min p.2.2),
               ps.length + 1⟩) ∧
    (∀ (a : ℚ) (l : List ℚ),
        l.foldl max a ∈ a :: l ∧ a ≤ l.foldl max a ∧ ∀ q ∈ l, q ≤ l.foldl max a) ∧
    (∀ (a : ℚ) (l : List ℚ),
        l.foldl min a ∈ a :: l ∧ l.foldl min a ≤ a ∧ ∀ q ∈ l, l.foldl min a ≤ q) ∧
    getSize [] = .error "No vertices found" := by
  refine ⟨?_, ?_, ?_, rfl⟩
  · intro p ps
    obtain ⟨x, y, z⟩ := p
    simp only [List.map_cons, getSize, List.isEmpty_cons, liftPt, sizeLoop, jmin, jmax]
    rw [sizeLoop_num]
    simp only [jsub, List.foldl_map, List.length_cons, List.length_map,
      Bool.false_eq_true, if_false]
  · intro a l
    exact ⟨foldl_max_mem l a, (le_foldl_max l a).1, (le_foldl_max l a).2⟩
  · intro a l
    exact ⟨foldl_min_mem l a, (foldl_min_le l a).1, (foldl_min_le l a).2⟩

/-- C2 witness: a concrete two-point cloud. -/
theorem claim2_computeExtents_spec_witness :
    getSize [liftPt (1, 2, 3), liftPt (4, 0, 5)] = .ok ⟨.num 3, .num 2, .num 2, 2⟩ := by
  have h := claim2_computeExtents_spec.1 (1, 2, 3) [(4, 0, 5)]
  norm_num [List.foldl, max_def, min_def] at h
  exact h

/-- C3 counterexample: with the engine succeeding and the output file
present (a successful slicing), a failing input-file deletion on the
success path escalates into the catch block — the 200 response is
replaced by the 500 `PrusaSlicer processing failed` response and both
temp files survive the request, contradicting "deleted before the
response" and "never escalated over the primary outcome". -/
theorem claim3_cleanup_counterexample :
    (⟨true, true, true, false, true, []⟩ : SliceEnv).engineOk = true ∧
    (⟨true, true, true, false, true, []⟩ : SliceEnv).engineCreatesOutput = true ∧
    runSliceJob ⟨true, true, true, false, true, []⟩ =
      ⟨.failure .unlinkFailed, true, true, true⟩ :=
  ⟨rfl, rfl, rfl⟩

/-- C3 (amended): when both deletions succeed, every exit path deletes
both temp files before responding and logs nothing; on the failure
paths a deletion failure is logged and suppressed, never replacing the
primary error; but on the success path a failing input deletion
escalates — the response becomes the engine-failure error and the
output file is not even attempted to be deleted. -/
theorem claim3_cleanup_amended (env : SliceEnv) :
    (env.unlinkInputOk = true → env.unlinkOutputOk = true →
      (runSliceJob env).inputFileRemains = false ∧
      (runSliceJob env).outputFileRemains = false ∧
      (runSliceJob env).cleanupErrorLogged = false) ∧
    (env.writeOk = true → env.engineCreatesOutput = false →
      (runSliceJob env).response = .failure .missingOutput) ∧
    (env.writeOk = false → (runSliceJob env).response = .failure .writeFailed) ∧
    (env.writeOk = true → env.engineCreatesOutput = true → env.unlinkInputOk = false →
      (runSliceJob env).response = .failure .unlinkFailed ∧
      (runSliceJob env).outputFileRemains = true) := by
  obtain ⟨w, eo, out, ui, uo, g⟩ := env
  cases w <;> cases out <;> cases ui <;> cases uo <;>
    simp [runSliceJob, catchCleanup]

/-- C3 witness: all operations succeed — both files gone, nothing
logged. -/
theorem claim3_cleanup_amended_witness :
    (runSliceJob ⟨true, true, true, true, true, []⟩).inputFileRemains = false ∧
    (runSliceJob ⟨true, true, true, true, true, []⟩).outputFileRemains = false ∧
    (runSliceJob ⟨true, true, true, true, true, []⟩).cleanupErrorLogged = false :=
  (claim3_cleanup_amended ⟨true, true, true, true, true, []⟩).1 rfl rfl

/-- C4 counterexample: the engine fails (non-zero exit / timeout) but
leaves the output file, and the input-file deletion fails: the
operation fails even though the expected output exists, refuting
"fails if and only if the output file is absent" and "its text is
returned regardless". -/
theorem claim4_output_counterexample :
    (⟨true, false, true, false, true, []⟩ : SliceEnv).engineCreatesOutput = true ∧
    runSliceJob ⟨true, false, true, false, true, []⟩ =
      ⟨.failure .unlinkFailed, true, true, true⟩ :=
  ⟨rfl, rfl⟩

/-- C4 (amended: provided the temp deletions succeed): after staging
succeeds, the operation succeeds with the parsed print time of the
output text if and only if the engine left the output file — the
engine's own success/failure flag (`env.engineOk`, free on both sides)
plays no role — and a missing output file yields exactly the
missing-output failure. -/
theorem claim4_output_decides_amended (env : SliceEnv)
    (hw : env.writeOk = true) (hui : env.unlinkInputOk = true)
    (huo : env.unlinkOutputOk = true) :
    ((runSliceJob env).response = .success (parsePrintTime env.gcode) ↔
      env.engineCreatesOutput = true) ∧
    (env.engineCreatesOutput = false →
      (runSliceJob env).response = .failure .missingOutput) := by
  obtain ⟨w, eo, out, ui, uo, g⟩ := env
  simp only at hw hui huo
  subst hw hui huo
  cases out <;> simp [runSliceJob, catchCleanup]

/-- C4 witness: non-zero engine exit with the output file present
still yields the success response carrying the parsed print time. -/
theorem claim4_output_decides_amended_witness :
    (runSliceJob ⟨true, false, true, true, true, []⟩).response =
      .success (parsePrintTime []) :=
  ((claim4_output_decides_amended ⟨true, false, true, true, true, []⟩
    rfl rfl rfl).1.mpr rfl)

/-- C5 counterexample: an STL whose text is just `solid facet` (ASCII
markers present, no vertex lines) decodes to the *empty point
sequence* — `readASCIISTL` has no zero-point check, so `readSTL`
returns `ok []` instead of failing with an empty-mesh error. -/
theorem claim5_empty_mesh_counterexample :
    readSTL (strBytes "solid facet") = .ok [] := by decide

/-- C5 (amended): the OBJ decoder does fail on zero points; the ASCII
STL decoder can return an empty sequence, but the dimensions pipeline
then fails in `getSize` with `No vertices found`, so a decode of zero
points never produces a dimensions result: any `ok` outcome of the
pipeline has a positive vertex count. -/
theorem claim5_empty_mesh_amended :
    (∀ (buf : List Nat) (l : List Pt), readOBJ buf = .ok l → l ≠ []) ∧
    (∀ (ext : String) (buf : List Nat) (s : Size),
        dimensionsOf ext buf = .ok s → 0 < s.vertexCount) ∧
    (∀ buf : List Nat, readSTL buf = .ok [] →
        dimensionsOf "stl" buf = .error "No vertices found") := by
  refine ⟨?_, ?_, ?_⟩
  · intro buf l h
    simp only [readOBJ] at h
    split at h
    · cases h
    · next hne =>
      injection h with h'
      subst h'
      simpa [List.isEmpty_iff] using hne
  · intro ext buf s h
    simp only [dimensionsOf] at h
    cases hd : (if ext = "stl" then readSTL buf else readOBJ buf) with
    | error e => rw [hd] at h; cases h
    | ok verts =>
      rw [hd] at h
      simp only [Except.bind] at h
      obtain ⟨hcnt, hne⟩ := getSize_ok_inv verts s h
      rw [hcnt]
      exact List.length_pos.mpr hne
  · intro buf h
    simp [dimensionsOf, h, Except.bind, getSize]

/-- C5 witness: a one-vertex OBJ decodes non-empty. -/
theorem claim5_empty_mesh_amended_witness :
    readOBJ (strBytes "v 1 2 3") = .ok [liftPt (1, 2, 3)] ∧
    [liftPt (1, 2, 3)] ≠ ([] : List Pt) := by
  have h : readOBJ (strBytes "v 1 2 3") = .ok [liftPt (1, 2, 3)] := by decide
  exact ⟨h, claim5_empty_mesh_amended.1 (strBytes "v 1 2 3") [liftPt (1, 2, 3)] h⟩

/-- C6: whenever the binary size check fails (length not above 84, or
the declared count not matching the byte length), `readSTL` takes the
ASCII fallback; there it succeeds exactly when the lowercased decoded
text contains both `solid` and `facet`, and otherwise fails with the
`Not a valid STL file` format error. -/
theorem claim6_ascii_fallback (buf : List Nat)
    (h : buf.length ≤ 84 ∨ buf.length ≠ 84 + getUint32LE buf 80 * 50) :
    readSTL buf = readSTLAscii buf ∧
    ((containsSub "solid".toList (jsToLowerL (decodeText buf)) &&
      containsSub "facet".toList (jsToLowerL (decodeText buf))) = true →
        readSTL buf = .ok (readASCIISTL (decodeText buf))) ∧
    ((containsSub "solid".toList (jsToLowerL (decodeText buf)) &&
      containsSub "facet".toList (jsToLowerL (decodeText buf))) = false →
        readSTL buf = .error "Not a valid STL file") := by
  have h1 : readSTL buf = readSTLAscii buf := by
    simp only [readSTL]
    rcases h with h | h
    · rw [if_neg (by omega)]
    · by_cases hgt : buf.length > 84
      · rw [if_pos hgt, if_neg h]
      · rw [if_neg hgt]
  refine ⟨h1, ?_, ?_⟩
  · intro ht
    rw [h1]
    simp only [readSTLAscii, ht, if_true]
  · intro hf
    rw [h1]
    simp only [readSTLAscii, hf, Bool.false_eq_true, if_false]

/-- C6 witness: an 11-byte `solid facet` buffer fails the size check
and decodes through the ASCII branch; a 5-byte `hello` buffer without
the markers fails with the format error. -/
theorem claim6_ascii_fallback_witness :
    (strBytes "solid facet").length ≤ 84 ∧
    readSTL (strBytes "solid facet") = .ok (readASCIISTL (decodeText (strBytes "solid facet"))) ∧
    (strBytes "hello").length ≤ 84 ∧
    readSTL (strBytes "hello") = .error "Not a valid STL file" :=
  ⟨by decide,
   (claim6_ascii_fallback (strBytes "solid facet") (Or.inl (by decide))).2.1 (by decide),
   by decide,
   (claim6_ascii_fallback (strBytes "hello") (Or.inl (by decide))).2.2 (by decide)⟩

/-- C7 counterexample: on the line
`; estimated printing time = 3h\r12m` the program's regex capture
stops at the carriage return (the regex `.` does not match CR), so
`parsePrintTime` returns `3h` — not `3h\r12m`, the trimmed substring
following the first `=` after the marker that the claim prescribes
(the second conjunct computes that substring with the model's own
drop/trim primitives; JS `trim` strips only edges, not the interior
CR). -/
theorem claim7_print_time_counterexample :
    parsePrintTime ("; estimated printing time = 3h\r12m".toList) = "3h".toList ∧
    jsTrim ((("; estimated printing time = 3h\r12m".toList).dropWhile
        (fun c => !(c == '='))).drop 1) = "3h\r12m".toList ∧
    ("3h".toList : List Char) ≠ "3h\r12m".toList :=
  ⟨by decide, by decide, by decide⟩

/-- C7 (amended): `parsePrintTime` returns the literal `Unknown` when
no line contains the marker `; estimated printing time`; when the
first marker-containing line also matches the regex, the result is
exactly that match's trimmed capture (`lineMatch`: the text after the
first `=` following the marker, truncated at the first line terminator
since `.` matches neither LF nor CR) — scanning stops there, later
lines (`post`, unconstrained) are never aggregated; and a marker line
the regex rejects (nothing but line terminators after its first `=`)
is skipped, not matched, as the third, concrete conjunct shows. -/
theorem claim7_extract_print_time :
    (∀ g : List Char, (∀ l ∈ splitOn '\n' g, containsSub ppMarker l = false) →
        parsePrintTime g = "Unknown".toList) ∧
    (∀ (g : List Char) (pre : List (List Char)) (l : List Char)
        (post : List (List Char)) (t : List Char),
        splitOn '\n' g = pre ++ l :: post →
        (∀ l' ∈ pre, containsSub ppMarker l' = false) →
        lineMatch l = some t →
        parsePrintTime g = t) ∧
    parsePrintTime ("; estimated printing time =\r\n; estimated printing time = 5h".toList) =
      "5h".toList := by
  refine ⟨?_, ?_, by decide⟩
  · intro g hg
    exact parsePrintTimeLoop_no_marker _ hg
  · intro g pre l post t hsplit hpre hm
    unfold parsePrintTime
    rw [hsplit]
    exact parsePrintTimeLoop_first pre l post t hpre hm

/-- C7 witness: the spec's own example (with noise before and after),
yielding `3h 12m`; plus the `Unknown` case. -/
theorem claim7_extract_print_time_witness :
    parsePrintTime ("start\n; estimated printing time (normal mode) = 3h 12m\nend".toList) =
      "3h 12m".toList ∧
    parsePrintTime ("G1 X0\nG1 Y0".toList) = "Unknown".toList :=
  ⟨claim7_extract_print_time.2.1
      ("start\n; estimated printing time (normal mode) = 3h 12m\nend".toList)
      ["start".toList]
      ("; estimated printing time (normal mode) = 3h 12m".toList)
      ["end".toList] ("3h 12m".toList) (by decide) (by decide) (by decide),
   claim7_extract_print_time.1 ("G1 X0\nG1 Y0".toList) (by decide)⟩

/-- C8: the built argument sequence is exactly the flag/value prefix,
then `--export-gcode`, then — exactly when `supportMaterial` is true —
`--support-material`, then the trailing `--output outputPath inputPath`
triple in that order; and with `supportMaterial` false the support flag
is absent from the sequence (provided no config string or path is
itself that literal flag). -/
theorem claim8_args_tail (c : PrintConfig) (inP outP : String) :
    generatePrusaCommand c inP outP =
      basePrefix c ++ ["--export-gcode"] ++
        (if c.supportMaterial then ["--support-material"] else []) ++
        ["--output", outP, inP] ∧
    (c.supportMaterial = false → c.material ≠ "--support-material" →
      c.materialType ≠ "--support-material" → inP ≠ "--support-material" →
      outP ≠ "--support-material" →
      "--support-material" ∉ generatePrusaCommand c inP outP) :=
  ⟨generatePrusaCommand_eq c inP outP,
   fun hs hm hmt hin hout => support_flag_absent c inP outP hs hm hmt hin hout⟩

/-- C8 witness: with support requested the flag sits between
`--export-gcode` and the output triple; without it the flag is absent. -/
theorem claim8_args_tail_witness :
    generatePrusaCommand ⟨"PLA", "", 1/2, 20, true⟩ "in0" "out0" =
      basePrefix ⟨"PLA", "", 1/2, 20, true⟩ ++ ["--export-gcode"] ++
        ["--support-material"] ++ ["--output", "out0", "in0"] ∧
    "--support-material" ∉ generatePrusaCommand ⟨"PLA", "", 1/2, 20, false⟩ "in0" "out0" :=
  ⟨(claim8_args_tail ⟨"PLA", "", 1/2, 20, true⟩ "in0" "out0").1,
   (claim8_args_tail ⟨"PLA", "", 1/2, 20, false⟩ "in0" "out0").2 rfl
     (by decide) (by decide) (by decide) (by decide)⟩

/-- C9: the layer height passed to the engine is 0.2 by default,
`max 0.1 (nozzleSize·0.5)` whenever `nozzleSize ≤ 0.3`; in particular
0.2 ↦ 0.1, 0.3 ↦ 0.15, 0.4 ↦ 0.2; and the built argument list always
carries the `--layer-height` flag immediately followed by that value. -/
theorem claim9_layer_height (c : PrintConfig) (inP outP : String) :
    (c.nozzleSize ≤ 3/10 →
      layerHeightFor c.nozzleSize = max (1/10) (c.nozzleSize * (1/2))) ∧
    (¬(c.nozzleSize ≤ 3/10) → layerHeightFor c.nozzleSize = 1/5) ∧
    layerHeightFor (1/5) = 1/10 ∧ layerHeightFor (3/10) = 3/20 ∧
    layerHeightFor (2/5) = 1/5 ∧
    List.IsInfix ["--layer-height", jsToString (layerHeightFor c.nozzleSize)]
      (generatePrusaCommand c inP outP) := by
  refine ⟨fun h => by simp [layerHeightFor, h], fun h => by simp [layerHeightFor, h],
    by norm_num [layerHeightFor], by norm_num [layerHeightFor],
    by norm_num [layerHeightFor], ?_⟩
  refine ⟨["--nozzle-diameter", jsToString c.nozzleSize, "--filament-type",
    (if c.materialType = "" then c.material else c.materialType),
    "--temperature", jsToString (getMaterialSettings c.material).extruder,
    "--first-layer-temperature", jsToString (getMaterialSettings c.material).firstLayerTemp,
    "--bed-temperature", jsToString (getMaterialSettings c.material).bed,
    "--retract-length", jsToString (getMaterialSettings c.material).retractionLength,
    "--retract-speed", jsToString (getMaterialSettings c.material).retractionSpeed,
    "--fill-density", fillDensityArg c.fillDensity],
    ["--bed-shape", "0x0,300x0,300x300,0x300", "--export-gcode"] ++
      (if c.supportMaterial then ["--support-material"] else []) ++
      ["--output", outP, inP], ?_⟩
  rw [generatePrusaCommand_eq]
  rfl

/-- C9 witness: nozzle size 0.2 yields layer height 0.1, and the pair
appears in the argument list. -/
theorem claim9_layer_height_witness :
    layerHeightFor (1/5) = 1/10 ∧
    List.IsInfix ["--layer-height", jsToString (layerHeightFor (1/5 : ℚ))]
      (generatePrusaCommand ⟨"PLA", "", 1/5, 20, false⟩ "in1" "out1") :=
  ⟨(claim9_layer_height ⟨"PLA", "", 1/5, 20, false⟩ "in1" "out1").2.2.1,
   (claim9_layer_height ⟨"PLA", "", 1/5, 20, false⟩ "in1" "out1").2.2.2.2.2⟩

/-- C10: in ASCII STL parsing every four-token `vertex` line
contributes a point no matter what the coordinate tokens are — the
point count equals the count of such lines (first conjunct, with
`isVertexLine` never inspecting the tokens' numeric shape); a line
`vertex a b c` concretely yields the NaN point, which propagates to
NaN extents in the dimensions pipeline; OBJ parsing by contrast skips
its non-numeric line. -/
theorem claim10_ascii_nan_vertices :
    (∀ txt : List Char,
        (readASCIISTL txt).length = (splitOn '\n' txt).countP isVertexLine) ∧
    readASCIISTL "solid s\nfacet\nvertex a b c\nendfacet\nendsolid".toList =
      [(.nan, .nan, .nan)] ∧
    dimensionsOf "stl" (strBytes
        "solid s\nfacet normal 0 0 0\nvertex a b c\nvertex 1 2 3\nvertex 2 2 3\nendfacet\nendsolid") =
      .ok ⟨.nan, .nan, .nan, 3⟩ ∧
    readOBJ (strBytes "v a b c\nv 1 2 3") = .ok [(.num 1, .num 2, .num 3)] := by
  refine ⟨?_, by decide, by decide, by decide⟩
  intro txt
  simp only [readASCIISTL]
  generalize splitOn '\n' txt = ls
  induction ls with
  | nil => rfl
  | cons l ls ih =>
    simp only [List.flatMap_cons, List.length_append, List.countP_cons, ih]
    cases hv : isVertexLine l with
    | false =>
      have h : ¬((splitWS (jsToLowerL (jsTrim l))).headD [] = "vertex".toList ∧
          (splitWS (jsToLowerL (jsTrim l))).length = 4) := by
        intro hc
        have ht : isVertexLine l = true := by
          simp only [isVertexLine, Bool.and_eq_true, decide_eq_true_eq]
          exact hc
        rw [ht] at hv
        cases hv
      rw [if_neg h]
      simp
    | true =>
      have h : (splitWS (jsToLowerL (jsTrim l))).headD [] = "vertex".toList ∧
          (splitWS (jsToLowerL (jsTrim l))).length = 4 := by
        simpa [isVertexLine, Bool.and_eq_true, decide_eq_true_eq] using hv
      rw [if_pos h]
      simp [Nat.add_comm]
